import Mathlib

/-!
# Verification of the `uuid` package (RFC 4122 v4 identifiers)

Shallow embedding of `uuid.go`.  A UUID is a Go `[16]byte`, modelled as a
`List Nat` of length 16 whose entries are below 256.  Textual data (Go
`[]byte` / `string`) is modelled as a `List Nat` of ASCII byte values, since
Go strings are byte sequences and `encoding/hex` works on bytes.

Fallible operations return a `DecodeResult` together with the (possibly
mutated) 16 target bytes, reflecting Go's decode-into-pointer semantics.
An out-of-bounds index or slice — which in Go aborts with a run-time
panic — is modelled by the distinguished result `DecodeResult.outOfRange`.
-/

namespace Uuid

/-- ASCII bytes of a string literal, for stating concrete examples. -/
def str2bytes (s : String) : List Nat :=
  s.toList.map Char.toNat

/-- Outcome of a decode operation, covering every abnormal outcome of the
Go code: the text length error, the hex-decoding error, a run-time panic
from an out-of-bounds slice, the binary length-mismatch error (carrying the
actual length received), the BSON tag-mismatch error, and the `Scan`
type-mismatch error (carrying the name of the unexpected type). -/
inductive DecodeResult
  | ok
  | lengthTextError
  | hexError
  | outOfRange
  | binLengthError (got : Nat)
  | tagError
  | typeError (typeName : String)
  deriving DecidableEq, Repr

/-- `encoding/hex` `fromHexChar`: value of one ASCII hex digit. -/
def hexVal (c : Nat) : Option Nat :=
  if 48 ≤ c ∧ c ≤ 57 then some (c - 48)        -- '0'..'9'
  else if 97 ≤ c ∧ c ≤ 102 then some (c - 97 + 10)  -- 'a'..'f'
  else if 65 ≤ c ∧ c ≤ 70 then some (c - 65 + 10)   -- 'A'..'F'
  else none

/-- `encoding/hex` `Decode` on an even-length source: decodes byte pairs
left to right, writing each decoded byte as it goes; on the first invalid
pair it stops, returning the bytes already written and a failure flag
(Go returns the written count and `ErrInvalidByte`). -/
def hexDecode : List Nat → List Nat × Bool
  | a :: b :: rest =>
    match hexVal a, hexVal b with
    | some hi, some lo =>
      let r := hexDecode rest
      ((hi * 16 + lo) :: r.1, r.2)
    | _, _ => ([], false)
  | [] => ([], true)
  | [_] => ([], false)

/-- Lowercase ASCII hex digit of a nibble, as produced by Go `%x`. -/
def hexChar (n : Nat) : Nat :=
  if n < 10 then 48 + n else 87 + n

/-- Go `%x` of one byte: exactly two lowercase hex digits. -/
def byteToHex (b : Nat) : List Nat :=
  [hexChar (b / 16), hexChar (b % 16)]

/-- Go `%x` of a byte slice: each byte as two lowercase hex digits. -/
def renderBytes (bs : List Nat) : List Nat :=
  (bs.map byteToHex).flatten

/-- Overwrite `bs.length` bytes of `u` starting at offset `off`
(the effect of `hex.Decode`/`copy` writing through a slice of `u`). -/
def writeAt (u : List Nat) (off : Nat) (bs : List Nat) : List Nat :=
  u.take off ++ bs ++ u.drop (off + bs.length)

/-- `New` (given the 16 random bytes `r` drawn from `crypto/rand`):
overwrite the version nibble of byte 6 (`uuid[6] = uuid[6]&0x0f | 0x40`)
and the variant bits of byte 8 (`uuid[8] = uuid[8]&0x3f | 0x80`). -/
def new (r : List Nat) : List Nat :=
  let u := r.set 6 ((r.getD 6 0 &&& 0x0f) ||| 0x40)
  let u := u.set 8 ((u.getD 8 0 &&& 0x3f) ||| 0x80)
  u

/-- `Version`: `uint(u[6] >> 4)`. -/
def version (u : List Nat) : Nat :=
  u.getD 6 0 >>> 4

/-- `String`:
`fmt.Sprintf("%x-%x-%x-%x-%x", u[0:4], u[4:6], u[6:8], u[8:10], u[10:])`.
45 is ASCII `-`. -/
def uuidString (u : List Nat) : List Nat :=
  renderBytes (u.take 4) ++ 45 :: renderBytes ((u.drop 4).take 2) ++
    45 :: renderBytes ((u.drop 6).take 2) ++
    45 :: renderBytes ((u.drop 8).take 2) ++
    45 :: renderBytes (u.drop 10)

/-- `MarshalText`: `[]byte(u.String())`. -/
def marshalText (u : List Nat) : List Nat :=
  uuidString u

/-- `Value` (`driver.Valuer`): `u.String()`. -/
def value (u : List Nat) : List Nat :=
  uuidString u

/-- The group loop of `UnmarshalText`: for each group size in
`[8,4,4,4,12]`, skip one leading `-` if present, hex-decode the next
`byteGroup` characters into the target at the current offset, and advance.
`text[0]` on an empty slice and `text[:byteGroup]` (or `text[byteGroup:]`)
on a shorter slice are out-of-range accesses: Go panics. -/
def unmarshalGroups : List Nat → Nat → List Nat → List Nat →
    DecodeResult × List Nat
  | [], _off, u, _text => (.ok, u)
  | g :: gs, off, u, text =>
    match text with
    | [] => (.outOfRange, u)
    | c :: rest =>
      let t := if c = 45 then rest else c :: rest
      if t.length < g then (.outOfRange, u)
      else
        let d := hexDecode (t.take g)
        let u := writeAt u off d.1
        if d.2 then unmarshalGroups gs (off + g / 2) u (t.drop g)
        else (.hexError, u)

/-- `UnmarshalText`: length checked once, up front (`len(text) < 32`);
then a `urn:uuid:` prefix (9 bytes) is stripped, else a single leading `{`;
then the five fixed groups are consumed. -/
def unmarshalText (u : List Nat) (text : List Nat) : DecodeResult × List Nat :=
  if text.length < 32 then (.lengthTextError, u)
  else if text.take 9 = str2bytes "urn:uuid:" then
    unmarshalGroups [8, 4, 4, 4, 12] 0 u (text.drop 9)
  else if text.headD 0 = 123 then   -- 123 is the ASCII opening curly brace
    unmarshalGroups [8, 4, 4, 4, 12] 0 u (text.drop 1)
  else
    unmarshalGroups [8, 4, 4, 4, 12] 0 u text

/-- `UnmarshalBinary`: error naming the actual length unless the data is
exactly 16 bytes, in which case all 16 bytes are copied into the target. -/
def unmarshalBinary (u : List Nat) (data : List Nat) : DecodeResult × List Nat :=
  if data.length ≠ 16 then (.binLengthError data.length, u)
  else (.ok, writeAt u 0 data)

/-- A `bson.Binary` value: subtype tag (`Kind`) and payload bytes. -/
structure BSONBinary where
  kind : Nat
  data : List Nat
  deriving DecidableEq, Repr

/-- `GetBSON`: `bson.Binary{Kind: 0x04, Data: u.Bytes()}`. -/
def getBSON (u : List Nat) : BSONBinary :=
  ⟨0x04, u⟩

/-- `SetBSON` (after the raw document has been unmarshalled into a
`bson.Binary`): reject any subtype tag other than `0x04`, otherwise
delegate to `UnmarshalBinary`. -/
def setBSON (u : List Nat) (bin : BSONBinary) : DecodeResult × List Nat :=
  if bin.kind ≠ 0x04 then (.tagError, u)
  else unmarshalBinary u bin.data

/-- The runtime shapes `Scan` can receive: a byte slice, a string, or a
value of any other type (represented by the name of that type). -/
inductive ScanSrc
  | bytes (data : List Nat)
  | str (s : List Nat)
  | other (typeName : String)
  deriving DecidableEq, Repr

/-- `Scan`: a 16-byte slice goes to `UnmarshalBinary`; any other byte
slice and any string go to `UnmarshalText`; anything else is a
type-mismatch error naming the type. -/
def scan (u : List Nat) (src : ScanSrc) : DecodeResult × List Nat :=
  match src with
  | .bytes data =>
    if data.length = 16 then unmarshalBinary u data
    else unmarshalText u data
  | .str s => unmarshalText u s
  | .other t => (.typeError t, u)

/-- Whether an ASCII byte is a lowercase hexadecimal digit
(`0`–`9` or `a`–`f`). -/
def isLowerHexDigit (c : Nat) : Bool :=
  decide ((48 ≤ c ∧ c ≤ 57) ∨ (97 ≤ c ∧ c ≤ 102))

/-- Map a lowercase ASCII hex digit to its uppercase form (other bytes
unchanged), to state case-insensitive acceptance of hex digits. -/
def upperHex (c : Nat) : Nat :=
  if 97 ≤ c ∧ c ≤ 102 then c - 32 else c

/-! ## Helper lemmas -/

/-- A 16-byte target filled with zeroes, for concrete instances. -/
def zeros : List Nat :=
  List.replicate 16 0

/-- The example identifier `6ba7b810-9dad-11d1-80b4-00c04fd430c8`. -/
def exampleUUID : List Nat :=
  [0x6b, 0xa7, 0xb8, 0x10, 0x9d, 0xad, 0x11, 0xd1,
   0x80, 0xb4, 0x00, 0xc0, 0x4f, 0xd4, 0x30, 0xc8]

lemma eq_sixteen (u : List Nat) (h : u.length = 16) :
    ∃ a0 a1 a2 a3 a4 a5 a6 a7 a8 a9 a10 a11 a12 a13 a14 a15 : Nat,
      u = [a0, a1, a2, a3, a4, a5, a6, a7, a8, a9, a10, a11, a12, a13, a14, a15] := by
  rcases u with _ | ⟨a0, u⟩; · simp at h
  rcases u with _ | ⟨a1, u⟩; · simp at h
  rcases u with _ | ⟨a2, u⟩; · simp at h
  rcases u with _ | ⟨a3, u⟩; · simp at h
  rcases u with _ | ⟨a4, u⟩; · simp at h
  rcases u with _ | ⟨a5, u⟩; · simp at h
  rcases u with _ | ⟨a6, u⟩; · simp at h
  rcases u with _ | ⟨a7, u⟩; · simp at h
  rcases u with _ | ⟨a8, u⟩; · simp at h
  rcases u with _ | ⟨a9, u⟩; · simp at h
  rcases u with _ | ⟨a10, u⟩; · simp at h
  rcases u with _ | ⟨a11, u⟩; · simp at h
  rcases u with _ | ⟨a12, u⟩; · simp at h
  rcases u with _ | ⟨a13, u⟩; · simp at h
  rcases u with _ | ⟨a14, u⟩; · simp at h
  rcases u with _ | ⟨a15, u⟩; · simp at h
  rcases u with _ | ⟨a16, u⟩
  · exact ⟨a0, a1, a2, a3, a4, a5, a6, a7, a8, a9, a10, a11, a12, a13, a14, a15, rfl⟩
  · simp at h

lemma nibble_or_64 : ∀ y : Fin 16, (((y : Nat)) ||| 64) >>> 4 = 4 := by decide

lemma six_bits_or_128 : ∀ y : Fin 64, (((y : Nat)) ||| 128) >>> 6 = 2 := by decide

/-! ## C1: generation invariant -/

/-- C1: every identifier returned by `New` has the high nibble of byte 6
equal to 4 (version marker) and the top two bits of byte 8 equal to `10`
binary (RFC 4122 variant marker), regardless of the 16 random bytes
drawn. -/
theorem c1_generation_invariant (r : List Nat) (h : r.length = 16) :
    version (new r) = 4 ∧ (new r).getD 8 0 >>> 6 = 2 ∧ (new r).length = 16 := by
  obtain ⟨a0, a1, a2, a3, a4, a5, a6, a7, a8, a9, a10, a11, a12, a13, a14, a15, rfl⟩ :=
    eq_sixteen r h
  refine ⟨?_, ?_, by simp [new]⟩
  · have h6 : a6 &&& 15 < 16 := Nat.lt_succ_of_le Nat.and_le_right
    simpa [new, version] using nibble_or_64 ⟨a6 &&& 15, h6⟩
  · have h8 : a8 &&& 63 < 64 := Nat.lt_succ_of_le Nat.and_le_right
    simpa [new] using six_bits_or_128 ⟨a8 &&& 63, h8⟩

/-- Witness for C1 at a concrete random draw (all bytes `0xff`). -/
theorem c1_witness :
    version (new (List.replicate 16 0xff)) = 4 ∧
      (new (List.replicate 16 0xff)).getD 8 0 >>> 6 = 2 ∧
      (new (List.replicate 16 0xff)).length = 16 :=
  c1_generation_invariant (List.replicate 16 0xff) (by decide)

/-! ## C5: binary decoding -/

lemma unmarshalBinary_ok (u data : List Nat) (hu : u.length = 16)
    (hd : data.length = 16) : unmarshalBinary u data = (.ok, data) := by
  have hdrop : u.drop 16 = [] := by rw [← hu]; exact List.drop_length u
  simp [unmarshalBinary, writeAt, hd, hdrop]

lemma unmarshalBinary_err (u data : List Nat) (hd : data.length ≠ 16) :
    unmarshalBinary u data = (.binLengthError data.length, u) := by
  simp [unmarshalBinary, hd]

/-- C5: `UnmarshalBinary` succeeds iff the input is exactly 16 bytes, in
which case it copies all 16 bytes into the target; for any other length it
fails with a length-mismatch error naming the actual length received. -/
theorem c5_binary_decode (u data : List Nat) (hu : u.length = 16) :
    (data.length = 16 → unmarshalBinary u data = (.ok, data)) ∧
    (data.length ≠ 16 →
      unmarshalBinary u data = (.binLengthError data.length, u)) :=
  ⟨unmarshalBinary_ok u data hu, unmarshalBinary_err u data⟩

/-- Witness for C5: a 17-byte input fails naming length 17; a 16-byte
input is copied in whole. -/
theorem c5_witness :
    unmarshalBinary zeros (List.replicate 17 1) = (.binLengthError 17, zeros) ∧
      unmarshalBinary zeros exampleUUID = (.ok, exampleUUID) :=
  ⟨(c5_binary_decode zeros (List.replicate 17 1) (by decide)).2 (by decide),
   (c5_binary_decode zeros exampleUUID (by decide)).1 (by decide)⟩

/-! ## C6: BSON decoding rejects wrong tags -/

/-- C6: `SetBSON` fails with a tag-mismatch error whenever the subtype tag
is not `0x04`, even for a valid 16-byte payload; under tag `0x04` it
delegates to the 16-byte binary decode, so a 15-byte payload fails with a
length-mismatch error and a 16-byte payload is accepted. -/
theorem c6_setbson_tags (u : List Nat) (kind : Nat) (data : List Nat) :
    (kind ≠ 0x04 → setBSON u ⟨kind, data⟩ = (.tagError, u)) ∧
    (kind = 0x04 → data.length ≠ 16 →
      setBSON u ⟨kind, data⟩ = (.binLengthError data.length, u)) ∧
    (kind = 0x04 → data.length = 16 → u.length = 16 →
      setBSON u ⟨kind, data⟩ = (.ok, data)) := by
  refine ⟨fun hk => by simp [setBSON, hk], fun hk hd => ?_, fun hk hd hu => ?_⟩
  · simp [setBSON, hk, unmarshalBinary, hd]
  · have := unmarshalBinary_ok u data hu hd
    simp [setBSON, hk, this]

/-- Witness for C6: tag `0x05` with a valid 16-byte payload is rejected
with the tag error; tag `0x04` with a 15-byte payload fails naming
length 15. -/
theorem c6_witness :
    setBSON zeros ⟨0x05, List.replicate 16 7⟩ = (.tagError, zeros) ∧
      setBSON zeros ⟨0x04, List.replicate 15 7⟩ = (.binLengthError 15, zeros) :=
  ⟨(c6_setbson_tags zeros 0x05 (List.replicate 16 7)).1 (by decide),
   (c6_setbson_tags zeros 0x04 (List.replicate 15 7)).2.1 rfl (by decide)⟩

/-! ## C7: BSON round-trip -/

/-- C7: encoding an identifier with `GetBSON` (tag `0x04`, 16-byte
payload) and decoding with `SetBSON` recovers the identifier exactly. -/
theorem c7_bson_roundtrip (u w : List Nat) (hu : u.length = 16)
    (hw : w.length = 16) :
    setBSON w (getBSON u) = (.ok, u) := by
  have := unmarshalBinary_ok w u hw hu
  simp [setBSON, getBSON, this]

/-- Witness for C7 at the example identifier. -/
theorem c7_witness : setBSON zeros (getBSON exampleUUID) = (.ok, exampleUUID) :=
  c7_bson_roundtrip exampleUUID zeros (by decide) (by decide)

/-! ## C9: storage-value dispatch -/

/-- C9: `Scan` dispatches on the runtime shape of its input: an
exactly-16-byte byte slice goes to the binary decode, any other byte slice
and any string go to the text decode, and any other runtime type fails
with a type-mismatch error naming that type. -/
theorem c9_scan_dispatch (u data s : List Nat) (t : String)
    (hu : u.length = 16) :
    (data.length = 16 → scan u (.bytes data) = (.ok, data)) ∧
    (data.length ≠ 16 → scan u (.bytes data) = unmarshalText u data) ∧
    (scan u (.str s) = unmarshalText u s) ∧
    (scan u (.other t) = (.typeError t, u)) := by
  refine ⟨fun hd => ?_, fun hd => by simp [scan, hd], rfl, rfl⟩
  have := unmarshalBinary_ok u data hu hd
  simp [scan, hd, this]

/-- Witness for C9: a 16-byte slice is binary-decoded; a 36-byte textual
value is text-decoded; an `int` input yields the type error naming it. -/
theorem c9_witness :
    scan zeros (.bytes exampleUUID) = (.ok, exampleUUID) ∧
      scan zeros (.str (str2bytes "6ba7b810-9dad-11d1-80b4-00c04fd430c8")) =
        unmarshalText zeros (str2bytes "6ba7b810-9dad-11d1-80b4-00c04fd430c8") ∧
      scan zeros (.other "int") = (.typeError "int", zeros) :=
  ⟨(c9_scan_dispatch zeros exampleUUID [] "int" (by decide)).1 (by decide),
   (c9_scan_dispatch zeros [] (str2bytes "6ba7b810-9dad-11d1-80b4-00c04fd430c8")
      "int" (by decide)).2.2.1,
   (c9_scan_dispatch zeros [] [] "int" (by decide)).2.2.2⟩

/-! ## C10: binary decoding is atomic on failure -/

/-- C10: for every target and every input whose length is not 16,
`UnmarshalBinary` returns the length-mismatch error with the target's 16
bytes completely unchanged; text decoding, in contrast, can leave the
target partially overwritten after a failed decode (second conjunct:
a concrete failed text decode that mutated the target). -/
theorem c10_binary_atomic :
    (∀ u data : List Nat, data.length ≠ 16 →
      unmarshalBinary u data = (.binLengthError data.length, u)) ∧
    ((unmarshalText zeros
        (str2bytes "11111111-zzzz-1111-1111-111111111111")).1 = .hexError ∧
      (unmarshalText zeros
        (str2bytes "11111111-zzzz-1111-1111-111111111111")).2 ≠ zeros) := by
  refine ⟨fun u data hd => unmarshalBinary_err u data hd, by decide⟩

/-- Witness for C10: a 15-byte input leaves a zeroed target unchanged. -/
theorem c10_witness :
    unmarshalBinary zeros (List.replicate 15 9) = (.binLengthError 15, zeros) :=
  c10_binary_atomic.1 zeros (List.replicate 15 9) (by decide)

/-! ## C3: failure modes of text decoding -/

lemma unmarshalGroups_result (gs : List Nat) :
    ∀ off u t, (unmarshalGroups gs off u t).1 = .ok ∨
      (unmarshalGroups gs off u t).1 = .hexError ∨
      (unmarshalGroups gs off u t).1 = .outOfRange := by
  induction gs with
  | nil => intro off u t; left; rfl
  | cons g gs ih =>
    intro off u t
    rcases t with _ | ⟨c, rest⟩
    · right; right; rfl
    · unfold unmarshalGroups
      dsimp only
      split <;> split
      · exact Or.inr (Or.inr rfl)
      · split
        · exact ih _ _ _
        · exact Or.inr (Or.inl rfl)
      · exact Or.inr (Or.inr rfl)
      · split
        · exact ih _ _ _
        · exact Or.inr (Or.inl rfl)

/-- C3 counterexample: the input `urn:uuid:` followed by 23 hex digits has
length 32 — so it passes the up-front length check — yet decoding aborts
with an out-of-range access (a Go slice-bounds panic), an abnormal outcome
beyond the length and hex-decoding errors. -/
theorem c3_counterexample :
    (str2bytes "urn:uuid:aaaaaaaaaaaaaaaaaaaaaaa").length = 32 ∧
      (unmarshalText zeros (str2bytes "urn:uuid:aaaaaaaaaaaaaaaaaaaaaaa")).1 =
        DecodeResult.outOfRange := by
  decide

/-- C3 (amended): `UnmarshalText` reports the length error exactly when
the input is shorter than 32 bytes (checked once, up front, before prefix
stripping); every input of at least 32 bytes ends in success, a
hex-decoding error, or — when prefix stripping and hyphen skipping leave
fewer bytes than a group needs — an out-of-range access (panic). -/
theorem c3_text_failure_modes (u text : List Nat) :
    ((unmarshalText u text).1 = .lengthTextError ↔ text.length < 32) ∧
    (32 ≤ text.length →
      (unmarshalText u text).1 = .ok ∨ (unmarshalText u text).1 = .hexError ∨
        (unmarshalText u text).1 = .outOfRange) := by
  by_cases h : text.length < 32
  · refine ⟨⟨fun _ => h, fun _ => by simp [unmarshalText, h]⟩, fun h32 => ?_⟩
    omega
  · have hrest :
        (unmarshalText u text).1 = .ok ∨ (unmarshalText u text).1 = .hexError ∨
          (unmarshalText u text).1 = .outOfRange := by
      unfold unmarshalText
      simp only [h, if_false]
      split
      · exact unmarshalGroups_result _ _ _ _
      split
      · exact unmarshalGroups_result _ _ _ _
      · exact unmarshalGroups_result _ _ _ _
    refine ⟨⟨fun hl => ?_, fun hlt => absurd hlt h⟩, fun _ => hrest⟩
    rcases hrest with h1 | h1 | h1 <;> rw [hl] at h1 <;> exact absurd h1 (by decide)

/-- Witness for C3 at a concrete 32-byte compact input. -/
theorem c3_witness :
    (unmarshalText zeros (str2bytes "6ba7b8109dad11d180b400c04fd430c8")).1 =
        .ok ∨
      (unmarshalText zeros (str2bytes "6ba7b8109dad11d180b400c04fd430c8")).1 =
        .hexError ∨
      (unmarshalText zeros (str2bytes "6ba7b8109dad11d180b400c04fd430c8")).1 =
        .outOfRange :=
  (c3_text_failure_modes zeros
    (str2bytes "6ba7b8109dad11d180b400c04fd430c8")).2 (by decide)

/-! ## Machinery for the text round-trip claims -/

lemma hexVal_hexChar : ∀ n : Fin 16, hexVal (hexChar (n : Nat)) = some (n : Nat) := by
  decide

lemma hexVal_upperHex : ∀ n : Fin 16,
    hexVal (upperHex (hexChar (n : Nat))) = some (n : Nat) := by
  decide

lemma hexChar_facts : ∀ n : Fin 16,
    hexChar (n : Nat) ≠ 45 ∧ hexChar (n : Nat) ≠ 117 ∧ hexChar (n : Nat) ≠ 123 ∧
      upperHex (hexChar (n : Nat)) ≠ 45 ∧ upperHex (hexChar (n : Nat)) ≠ 117 ∧
      upperHex (hexChar (n : Nat)) ≠ 123 := by
  decide

lemma hexDecode_renderBytes (bs : List Nat) (hb : ∀ b ∈ bs, b < 256) :
    hexDecode (renderBytes bs) = (bs, true) := by
  induction bs with
  | nil => rfl
  | cons b bs ih =>
    have hblt : b < 256 := hb b (List.mem_cons_self _ _)
    have hdiv : b / 16 < 16 := by omega
    have hmod : b % 16 < 16 := by omega
    have e1 : hexVal (hexChar (b / 16)) = some (b / 16) := hexVal_hexChar ⟨b / 16, hdiv⟩
    have e2 : hexVal (hexChar (b % 16)) = some (b % 16) := hexVal_hexChar ⟨b % 16, hmod⟩
    have ih' := ih fun x hx => hb x (List.mem_cons_of_mem _ hx)
    show hexDecode (hexChar (b / 16) :: hexChar (b % 16) :: renderBytes bs) = _
    rw [hexDecode, e1, e2, ih']
    have : b / 16 * 16 + b % 16 = b := by omega
    simp [this]

lemma hexDecode_renderBytes_upper (bs : List Nat) (hb : ∀ b ∈ bs, b < 256) :
    hexDecode ((renderBytes bs).map upperHex) = (bs, true) := by
  induction bs with
  | nil => rfl
  | cons b bs ih =>
    have hblt : b < 256 := hb b (List.mem_cons_self _ _)
    have hdiv : b / 16 < 16 := by omega
    have hmod : b % 16 < 16 := by omega
    have e1 : hexVal (upperHex (hexChar (b / 16))) = some (b / 16) :=
      hexVal_upperHex ⟨b / 16, hdiv⟩
    have e2 : hexVal (upperHex (hexChar (b % 16))) = some (b % 16) :=
      hexVal_upperHex ⟨b % 16, hmod⟩
    have ih' := ih fun x hx => hb x (List.mem_cons_of_mem _ hx)
    show hexDecode (upperHex (hexChar (b / 16)) ::
      upperHex (hexChar (b % 16)) :: (renderBytes bs).map upperHex) = _
    rw [hexDecode, e1, e2, ih']
    have : b / 16 * 16 + b % 16 = b := by omega
    simp [this]

/-- One iteration of the group loop on a stream beginning with a valid
`g`-character hex group `s` (optionally preceded by one hyphen): the group
is decoded into the target at the current offset and the loop continues on
the remainder. -/
lemma unmarshalGroups_step (g : Nat) (gs : List Nat) (off : Nat)
    (u bts rest s : List Nat) (hg : 0 < g) (hlen : s.length = g)
    (hdec : hexDecode s = (bts, true)) (hhead : s.headD 0 ≠ 45) :
    unmarshalGroups (g :: gs) off u (s ++ rest) =
        unmarshalGroups gs (off + g / 2) (writeAt u off bts) rest ∧
      unmarshalGroups (g :: gs) off u (45 :: (s ++ rest)) =
        unmarshalGroups gs (off + g / 2) (writeAt u off bts) rest := by
  rcases s with _ | ⟨c, s'⟩
  · simp at hlen; omega
  have hc : ¬ (c = 45) := by simpa using hhead
  have hlen' : (c :: s').length = g := hlen
  have hnlt : ¬ (s'.length + rest.length + 1 < g) := by
    simp only [List.length_cons] at hlen'
    omega
  have htake : List.take g (c :: (s' ++ rest)) = c :: s' := by
    rw [← List.cons_append]; exact List.take_left' hlen'
  have hdrop : List.drop g (c :: (s' ++ rest)) = rest := by
    rw [← List.cons_append]; exact List.drop_left' hlen'
  have hdec' : hexDecode (c :: s') = (bts, true) := hdec
  constructor
  · rw [List.cons_append, unmarshalGroups]
    simp [hc, hnlt, htake, hdrop, hdec']
  · rw [unmarshalGroups]
    simp [hnlt, htake, hdrop, hdec']

/-- The accumulated five group writes at offsets 0, 4, 6, 8, 10 rebuild
the 16 written bytes exactly, over any 16-byte initial target. -/
lemma writeAt_final (w : List Nat) (hw : w.length = 16)
    (b0 b1 b2 b3 b4 b5 b6 b7 b8 b9 b10 b11 b12 b13 b14 b15 : Nat) :
    writeAt (writeAt (writeAt (writeAt (writeAt w 0 [b0, b1, b2, b3]) 4 [b4, b5]) 6
        [b6, b7]) 8 [b8, b9]) 10 [b10, b11, b12, b13, b14, b15] =
      [b0, b1, b2, b3, b4, b5, b6, b7, b8, b9, b10, b11, b12, b13, b14, b15] := by
  obtain ⟨w0, w1, w2, w3, w4, w5, w6, w7, w8, w9, w10, w11, w12, w13, w14, w15, rfl⟩ :=
    eq_sixteen w hw
  rfl

/-- The group loop decodes the canonical hyphenated rendering of any
16 bytes back to those bytes, ignoring any trailing input. -/
lemma groupsCanonical (w : List Nat) (hw : w.length = 16) (u : List Nat)
    (hu : u.length = 16) (hb : ∀ b ∈ u, b < 256) (tail : List Nat) :
    unmarshalGroups [8, 4, 4, 4, 12] 0 w (uuidString u ++ tail) = (.ok, u) := by
  obtain ⟨b0, b1, b2, b3, b4, b5, b6, b7, b8, b9, b10, b11, b12, b13, b14, b15, rfl⟩ :=
    eq_sixteen u hu
  have h0 : b0 < 256 := hb _ (by simp); have h1 : b1 < 256 := hb _ (by simp)
  have h2 : b2 < 256 := hb _ (by simp); have h3 : b3 < 256 := hb _ (by simp)
  have h4 : b4 < 256 := hb _ (by simp); have h5 : b5 < 256 := hb _ (by simp)
  have h6 : b6 < 256 := hb _ (by simp); have h7 : b7 < 256 := hb _ (by simp)
  have h8 : b8 < 256 := hb _ (by simp); have h9 : b9 < 256 := hb _ (by simp)
  have h10 : b10 < 256 := hb _ (by simp); have h11 : b11 < 256 := hb _ (by simp)
  have h12 : b12 < 256 := hb _ (by simp); have h13 : b13 < 256 := hb _ (by simp)
  have h14 : b14 < 256 := hb _ (by simp); have h15 : b15 < 256 := hb _ (by simp)
  calc
    unmarshalGroups [8, 4, 4, 4, 12] 0 w
        (uuidString [b0, b1, b2, b3, b4, b5, b6, b7, b8, b9,
          b10, b11, b12, b13, b14, b15] ++ tail)
      = unmarshalGroups [4, 4, 4, 12] 4 (writeAt w 0 [b0, b1, b2, b3])
          (45 :: (renderBytes [b4, b5] ++ (45 :: (renderBytes [b6, b7] ++
            (45 :: (renderBytes [b8, b9] ++
              (45 :: (renderBytes [b10, b11, b12, b13, b14, b15] ++ tail)))))))) :=
        (unmarshalGroups_step 8 [4, 4, 4, 12] 0 w [b0, b1, b2, b3]
          (45 :: (renderBytes [b4, b5] ++ (45 :: (renderBytes [b6, b7] ++
            (45 :: (renderBytes [b8, b9] ++
              (45 :: (renderBytes [b10, b11, b12, b13, b14, b15] ++ tail))))))))
          (renderBytes [b0, b1, b2, b3]) (by norm_num) rfl
          (hexDecode_renderBytes [b0, b1, b2, b3]
            (by intro x hx; fin_cases hx <;> assumption))
          (by exact (hexChar_facts ⟨b0 / 16, by omega⟩).1)).1
    _ = unmarshalGroups [4, 4, 12] 6
          (writeAt (writeAt w 0 [b0, b1, b2, b3]) 4 [b4, b5])
          (45 :: (renderBytes [b6, b7] ++ (45 :: (renderBytes [b8, b9] ++
            (45 :: (renderBytes [b10, b11, b12, b13, b14, b15] ++ tail)))))) :=
        (unmarshalGroups_step 4 [4, 4, 12] 4 (writeAt w 0 [b0, b1, b2, b3]) [b4, b5]
          (45 :: (renderBytes [b6, b7] ++ (45 :: (renderBytes [b8, b9] ++
            (45 :: (renderBytes [b10, b11, b12, b13, b14, b15] ++ tail))))))
          (renderBytes [b4, b5]) (by norm_num) rfl
          (hexDecode_renderBytes [b4, b5]
            (by intro x hx; fin_cases hx <;> assumption))
          (by exact (hexChar_facts ⟨b4 / 16, by omega⟩).1)).2
    _ = unmarshalGroups [4, 12] 8
          (writeAt (writeAt (writeAt w 0 [b0, b1, b2, b3]) 4 [b4, b5]) 6 [b6, b7])
          (45 :: (renderBytes [b8, b9] ++
            (45 :: (renderBytes [b10, b11, b12, b13, b14, b15] ++ tail)))) :=
        (unmarshalGroups_step 4 [4, 12] 6
          (writeAt (writeAt w 0 [b0, b1, b2, b3]) 4 [b4, b5]) [b6, b7]
          (45 :: (renderBytes [b8, b9] ++
            (45 :: (renderBytes [b10, b11, b12, b13, b14, b15] ++ tail))))
          (renderBytes [b6, b7]) (by norm_num) rfl
          (hexDecode_renderBytes [b6, b7]
            (by intro x hx; fin_cases hx <;> assumption))
          (by exact (hexChar_facts ⟨b6 / 16, by omega⟩).1)).2
    _ = unmarshalGroups [12] 10
          (writeAt (writeAt (writeAt (writeAt w 0 [b0, b1, b2, b3]) 4 [b4, b5]) 6
            [b6, b7]) 8 [b8, b9])
          (45 :: (renderBytes [b10, b11, b12, b13, b14, b15] ++ tail)) :=
        (unmarshalGroups_step 4 [12] 8
          (writeAt (writeAt (writeAt w 0 [b0, b1, b2, b3]) 4 [b4, b5]) 6 [b6, b7])
          [b8, b9] (45 :: (renderBytes [b10, b11, b12, b13, b14, b15] ++ tail))
          (renderBytes [b8, b9]) (by norm_num) rfl
          (hexDecode_renderBytes [b8, b9]
            (by intro x hx; fin_cases hx <;> assumption))
          (by exact (hexChar_facts ⟨b8 / 16, by omega⟩).1)).2
    _ = unmarshalGroups [] 16
          (writeAt (writeAt (writeAt (writeAt (writeAt w 0 [b0, b1, b2, b3]) 4
            [b4, b5]) 6 [b6, b7]) 8 [b8, b9]) 10 [b10, b11, b12, b13, b14, b15])
          tail :=
        (unmarshalGroups_step 12 [] 10
          (writeAt (writeAt (writeAt (writeAt w 0 [b0, b1, b2, b3]) 4 [b4, b5]) 6
            [b6, b7]) 8 [b8, b9])
          [b10, b11, b12, b13, b14, b15] tail
          (renderBytes [b10, b11, b12, b13, b14, b15]) (by norm_num) rfl
          (hexDecode_renderBytes [b10, b11, b12, b13, b14, b15]
            (by intro x hx; fin_cases hx <;> assumption))
          (by exact (hexChar_facts ⟨b10 / 16, by omega⟩).1)).2
    _ = (.ok, [b0, b1, b2, b3, b4, b5, b6, b7, b8, b9, b10, b11, b12, b13, b14, b15]) := by
        rw [writeAt_final w hw b0 b1 b2 b3 b4 b5 b6 b7 b8 b9 b10 b11 b12 b13 b14 b15]
        rfl

/-- The group loop also decodes the compact 32-hex-digit rendering (no
hyphens), ignoring any trailing input. -/
lemma groupsCompact (w : List Nat) (hw : w.length = 16) (u : List Nat)
    (hu : u.length = 16) (hb : ∀ b ∈ u, b < 256) (tail : List Nat) :
    unmarshalGroups [8, 4, 4, 4, 12] 0 w (renderBytes u ++ tail) = (.ok, u) := by
  obtain ⟨b0, b1, b2, b3, b4, b5, b6, b7, b8, b9, b10, b11, b12, b13, b14, b15, rfl⟩ :=
    eq_sixteen u hu
  have h0 : b0 < 256 := hb _ (by simp); have h1 : b1 < 256 := hb _ (by simp)
  have h2 : b2 < 256 := hb _ (by simp); have h3 : b3 < 256 := hb _ (by simp)
  have h4 : b4 < 256 := hb _ (by simp); have h5 : b5 < 256 := hb _ (by simp)
  have h6 : b6 < 256 := hb _ (by simp); have h7 : b7 < 256 := hb _ (by simp)
  have h8 : b8 < 256 := hb _ (by simp); have h9 : b9 < 256 := hb _ (by simp)
  have h10 : b10 < 256 := hb _ (by simp); have h11 : b11 < 256 := hb _ (by simp)
  have h12 : b12 < 256 := hb _ (by simp); have h13 : b13 < 256 := hb _ (by simp)
  have h14 : b14 < 256 := hb _ (by simp); have h15 : b15 < 256 := hb _ (by simp)
  calc
    unmarshalGroups [8, 4, 4, 4, 12] 0 w
        (renderBytes [b0, b1, b2, b3, b4, b5, b6, b7, b8, b9,
          b10, b11, b12, b13, b14, b15] ++ tail)
      = unmarshalGroups [4, 4, 4, 12] 4 (writeAt w 0 [b0, b1, b2, b3])
          (renderBytes [b4, b5] ++ (renderBytes [b6, b7] ++ (renderBytes [b8, b9] ++
            (renderBytes [b10, b11, b12, b13, b14, b15] ++ tail)))) :=
        (unmarshalGroups_step 8 [4, 4, 4, 12] 0 w [b0, b1, b2, b3]
          (renderBytes [b4, b5] ++ (renderBytes [b6, b7] ++ (renderBytes [b8, b9] ++
            (renderBytes [b10, b11, b12, b13, b14, b15] ++ tail))))
          (renderBytes [b0, b1, b2, b3]) (by norm_num) rfl
          (hexDecode_renderBytes [b0, b1, b2, b3]
            (by intro x hx; fin_cases hx <;> assumption))
          (by exact (hexChar_facts ⟨b0 / 16, by omega⟩).1)).1
    _ = unmarshalGroups [4, 4, 12] 6
          (writeAt (writeAt w 0 [b0, b1, b2, b3]) 4 [b4, b5])
          (renderBytes [b6, b7] ++ (renderBytes [b8, b9] ++
            (renderBytes [b10, b11, b12, b13, b14, b15] ++ tail))) :=
        (unmarshalGroups_step 4 [4, 4, 12] 4 (writeAt w 0 [b0, b1, b2, b3]) [b4, b5]
          (renderBytes [b6, b7] ++ (renderBytes [b8, b9] ++
            (renderBytes [b10, b11, b12, b13, b14, b15] ++ tail)))
          (renderBytes [b4, b5]) (by norm_num) rfl
          (hexDecode_renderBytes [b4, b5]
            (by intro x hx; fin_cases hx <;> assumption))
          (by exact (hexChar_facts ⟨b4 / 16, by omega⟩).1)).1
    _ = unmarshalGroups [4, 12] 8
          (writeAt (writeAt (writeAt w 0 [b0, b1, b2, b3]) 4 [b4, b5]) 6 [b6, b7])
          (renderBytes [b8, b9] ++
            (renderBytes [b10, b11, b12, b13, b14, b15] ++ tail)) :=
        (unmarshalGroups_step 4 [4, 12] 6
          (writeAt (writeAt w 0 [b0, b1, b2, b3]) 4 [b4, b5]) [b6, b7]
          (renderBytes [b8, b9] ++ (renderBytes [b10, b11, b12, b13, b14, b15] ++ tail))
          (renderBytes [b6, b7]) (by norm_num) rfl
          (hexDecode_renderBytes [b6, b7]
            (by intro x hx; fin_cases hx <;> assumption))
          (by exact (hexChar_facts ⟨b6 / 16, by omega⟩).1)).1
    _ = unmarshalGroups [12] 10
          (writeAt (writeAt (writeAt (writeAt w 0 [b0, b1, b2, b3]) 4 [b4, b5]) 6
            [b6, b7]) 8 [b8, b9])
          (renderBytes [b10, b11, b12, b13, b14, b15] ++ tail) :=
        (unmarshalGroups_step 4 [12] 8
          (writeAt (writeAt (writeAt w 0 [b0, b1, b2, b3]) 4 [b4, b5]) 6 [b6, b7])
          [b8, b9] (renderBytes [b10, b11, b12, b13, b14, b15] ++ tail)
          (renderBytes [b8, b9]) (by norm_num) rfl
          (hexDecode_renderBytes [b8, b9]
            (by intro x hx; fin_cases hx <;> assumption))
          (by exact (hexChar_facts ⟨b8 / 16, by omega⟩).1)).1
    _ = unmarshalGroups [] 16
          (writeAt (writeAt (writeAt (writeAt (writeAt w 0 [b0, b1, b2, b3]) 4
            [b4, b5]) 6 [b6, b7]) 8 [b8, b9]) 10 [b10, b11, b12, b13, b14, b15])
          tail :=
        (unmarshalGroups_step 12 [] 10
          (writeAt (writeAt (writeAt (writeAt w 0 [b0, b1, b2, b3]) 4 [b4, b5]) 6
            [b6, b7]) 8 [b8, b9])
          [b10, b11, b12, b13, b14, b15] tail
          (renderBytes [b10, b11, b12, b13, b14, b15]) (by norm_num) rfl
          (hexDecode_renderBytes [b10, b11, b12, b13, b14, b15]
            (by intro x hx; fin_cases hx <;> assumption))
          (by exact (hexChar_facts ⟨b10 / 16, by omega⟩).1)).1
    _ = (.ok, [b0, b1, b2, b3, b4, b5, b6, b7, b8, b9, b10, b11, b12, b13, b14, b15]) := by
        rw [writeAt_final w hw b0 b1 b2 b3 b4 b5 b6 b7 b8 b9 b10 b11 b12 b13 b14 b15]
        rfl

/-- The group loop also decodes the compact rendering with every hex digit
mapped to uppercase (case-insensitive acceptance of the hex alphabet). -/
lemma groupsCompactUpper (w : List Nat) (hw : w.length = 16) (u : List Nat)
    (hu : u.length = 16) (hb : ∀ b ∈ u, b < 256) (tail : List Nat) :
    unmarshalGroups [8, 4, 4, 4, 12] 0 w ((renderBytes u).map upperHex ++ tail) =
      (.ok, u) := by
  obtain ⟨b0, b1, b2, b3, b4, b5, b6, b7, b8, b9, b10, b11, b12, b13, b14, b15, rfl⟩ :=
    eq_sixteen u hu
  have h0 : b0 < 256 := hb _ (by simp); have h1 : b1 < 256 := hb _ (by simp)
  have h2 : b2 < 256 := hb _ (by simp); have h3 : b3 < 256 := hb _ (by simp)
  have h4 : b4 < 256 := hb _ (by simp); have h5 : b5 < 256 := hb _ (by simp)
  have h6 : b6 < 256 := hb _ (by simp); have h7 : b7 < 256 := hb _ (by simp)
  have h8 : b8 < 256 := hb _ (by simp); have h9 : b9 < 256 := hb _ (by simp)
  have h10 : b10 < 256 := hb _ (by simp); have h11 : b11 < 256 := hb _ (by simp)
  have h12 : b12 < 256 := hb _ (by simp); have h13 : b13 < 256 := hb _ (by simp)
  have h14 : b14 < 256 := hb _ (by simp); have h15 : b15 < 256 := hb _ (by simp)
  calc
    unmarshalGroups [8, 4, 4, 4, 12] 0 w
        ((renderBytes [b0, b1, b2, b3, b4, b5, b6, b7, b8, b9,
          b10, b11, b12, b13, b14, b15]).map upperHex ++ tail)
      = unmarshalGroups [4, 4, 4, 12] 4 (writeAt w 0 [b0, b1, b2, b3])
          ((renderBytes [b4, b5]).map upperHex ++ ((renderBytes [b6, b7]).map upperHex ++
            ((renderBytes [b8, b9]).map upperHex ++
              ((renderBytes [b10, b11, b12, b13, b14, b15]).map upperHex ++ tail)))) :=
        (unmarshalGroups_step 8 [4, 4, 4, 12] 0 w [b0, b1, b2, b3]
          ((renderBytes [b4, b5]).map upperHex ++ ((renderBytes [b6, b7]).map upperHex ++
            ((renderBytes [b8, b9]).map upperHex ++
              ((renderBytes [b10, b11, b12, b13, b14, b15]).map upperHex ++ tail))))
          ((renderBytes [b0, b1, b2, b3]).map upperHex) (by norm_num) rfl
          (hexDecode_renderBytes_upper [b0, b1, b2, b3]
            (by intro x hx; fin_cases hx <;> assumption))
          (by exact (hexChar_facts ⟨b0 / 16, by omega⟩).2.2.2.1)).1
    _ = unmarshalGroups [4, 4, 12] 6
          (writeAt (writeAt w 0 [b0, b1, b2, b3]) 4 [b4, b5])
          ((renderBytes [b6, b7]).map upperHex ++ ((renderBytes [b8, b9]).map upperHex ++
            ((renderBytes [b10, b11, b12, b13, b14, b15]).map upperHex ++ tail))) :=
        (unmarshalGroups_step 4 [4, 4, 12] 4 (writeAt w 0 [b0, b1, b2, b3]) [b4, b5]
          ((renderBytes [b6, b7]).map upperHex ++ ((renderBytes [b8, b9]).map upperHex ++
            ((renderBytes [b10, b11, b12, b13, b14, b15]).map upperHex ++ tail)))
          ((renderBytes [b4, b5]).map upperHex) (by norm_num) rfl
          (hexDecode_renderBytes_upper [b4, b5]
            (by intro x hx; fin_cases hx <;> assumption))
          (by exact (hexChar_facts ⟨b4 / 16, by omega⟩).2.2.2.1)).1
    _ = unmarshalGroups [4, 12] 8
          (writeAt (writeAt (writeAt w 0 [b0, b1, b2, b3]) 4 [b4, b5]) 6 [b6, b7])
          ((renderBytes [b8, b9]).map upperHex ++
            ((renderBytes [b10, b11, b12, b13, b14, b15]).map upperHex ++ tail)) :=
        (unmarshalGroups_step 4 [4, 12] 6
          (writeAt (writeAt w 0 [b0, b1, b2, b3]) 4 [b4, b5]) [b6, b7]
          ((renderBytes [b8, b9]).map upperHex ++
            ((renderBytes [b10, b11, b12, b13, b14, b15]).map upperHex ++ tail))
          ((renderBytes [b6, b7]).map upperHex) (by norm_num) rfl
          (hexDecode_renderBytes_upper [b6, b7]
            (by intro x hx; fin_cases hx <;> assumption))
          (by exact (hexChar_facts ⟨b6 / 16, by omega⟩).2.2.2.1)).1
    _ = unmarshalGroups [12] 10
          (writeAt (writeAt (writeAt (writeAt w 0 [b0, b1, b2, b3]) 4 [b4, b5]) 6
            [b6, b7]) 8 [b8, b9])
          ((renderBytes [b10, b11, b12, b13, b14, b15]).map upperHex ++ tail) :=
        (unmarshalGroups_step 4 [12] 8
          (writeAt (writeAt (writeAt w 0 [b0, b1, b2, b3]) 4 [b4, b5]) 6 [b6, b7])
          [b8, b9] ((renderBytes [b10, b11, b12, b13, b14, b15]).map upperHex ++ tail)
          ((renderBytes [b8, b9]).map upperHex) (by norm_num) rfl
          (hexDecode_renderBytes_upper [b8, b9]
            (by intro x hx; fin_cases hx <;> assumption))
          (by exact (hexChar_facts ⟨b8 / 16, by omega⟩).2.2.2.1)).1
    _ = unmarshalGroups [] 16
          (writeAt (writeAt (writeAt (writeAt (writeAt w 0 [b0, b1, b2, b3]) 4
            [b4, b5]) 6 [b6, b7]) 8 [b8, b9]) 10 [b10, b11, b12, b13, b14, b15])
          tail :=
        (unmarshalGroups_step 12 [] 10
          (writeAt (writeAt (writeAt (writeAt w 0 [b0, b1, b2, b3]) 4 [b4, b5]) 6
            [b6, b7]) 8 [b8, b9])
          [b10, b11, b12, b13, b14, b15] tail
          ((renderBytes [b10, b11, b12, b13, b14, b15]).map upperHex) (by norm_num) rfl
          (hexDecode_renderBytes_upper [b10, b11, b12, b13, b14, b15]
            (by intro x hx; fin_cases hx <;> assumption))
          (by exact (hexChar_facts ⟨b10 / 16, by omega⟩).2.2.2.1)).1
    _ = (.ok, [b0, b1, b2, b3, b4, b5, b6, b7, b8, b9, b10, b11, b12, b13, b14, b15]) := by
        rw [writeAt_final w hw b0 b1 b2 b3 b4 b5 b6 b7 b8 b9 b10 b11 b12 b13 b14 b15]
        rfl

lemma renderBytes_length (bs : List Nat) : (renderBytes bs).length = 2 * bs.length := by
  induction bs with
  | nil => rfl
  | cons b bs ih =>
    show (hexChar (b / 16) :: hexChar (b % 16) :: renderBytes bs).length = _
    simp only [List.length_cons, ih]
    omega

lemma uuidString_length (u : List Nat) (hu : u.length = 16) :
    (uuidString u).length = 36 := by
  obtain ⟨b0, b1, b2, b3, b4, b5, b6, b7, b8, b9, b10, b11, b12, b13, b14, b15, rfl⟩ :=
    eq_sixteen u hu
  rfl

/-- Decoding the bare hyphenated canonical rendering recovers the bytes. -/
lemma unmarshalText_canonical (w u : List Nat) (hw : w.length = 16)
    (hu : u.length = 16) (hb : ∀ b ∈ u, b < 256) :
    unmarshalText w (uuidString u) = (.ok, u) := by
  have hgroups := groupsCanonical w hw u hu hb []
  rw [List.append_nil] at hgroups
  obtain ⟨b0, b1, b2, b3, b4, b5, b6, b7, b8, b9, b10, b11, b12, b13, b14, b15, rfl⟩ :=
    eq_sixteen u hu
  have h0 : b0 < 256 := hb _ (by simp)
  have hd0 : b0 / 16 < 16 := by omega
  have hL : ¬ (uuidString [b0, b1, b2, b3, b4, b5, b6, b7, b8, b9,
      b10, b11, b12, b13, b14, b15]).length < 32 := by
    have := uuidString_length
      [b0, b1, b2, b3, b4, b5, b6, b7, b8, b9, b10, b11, b12, b13, b14, b15] rfl
    omega
  have hU : ¬ ((uuidString [b0, b1, b2, b3, b4, b5, b6, b7, b8, b9,
      b10, b11, b12, b13, b14, b15]).take 9 = str2bytes "urn:uuid:") := fun h =>
    (hexChar_facts ⟨b0 / 16, hd0⟩).2.1 (congrArg (fun l => l.headD 0) h)
  have hB : ¬ ((uuidString [b0, b1, b2, b3, b4, b5, b6, b7, b8, b9,
      b10, b11, b12, b13, b14, b15]).headD 0 = 123) :=
    (hexChar_facts ⟨b0 / 16, hd0⟩).2.2.1
  unfold unmarshalText
  rw [if_neg hL, if_neg hU, if_neg hB]
  exact hgroups

/-- Decoding the brace-wrapped canonical rendering recovers the bytes
(the trailing brace is simply left unconsumed). -/
lemma unmarshalText_braced (w u : List Nat) (hw : w.length = 16)
    (hu : u.length = 16) (hb : ∀ b ∈ u, b < 256) :
    unmarshalText w (123 :: (uuidString u ++ [125])) = (.ok, u) := by
  have hL : ¬ (123 :: (uuidString u ++ [125])).length < 32 := by
    simp [List.length_append, uuidString_length u hu]
  have hU : ¬ ((123 :: (uuidString u ++ [125])).take 9 = str2bytes "urn:uuid:") := by
    intro h
    have h123 : (123 : Nat) = 117 := congrArg (fun l => l.headD 0) h
    exact absurd h123 (by decide)
  unfold unmarshalText
  rw [if_neg hL, if_neg hU,
    if_pos (show (123 :: (uuidString u ++ [125])).headD 0 = 123 from rfl)]
  exact groupsCanonical w hw u hu hb [125]

/-- Decoding the `urn:uuid:`-prefixed canonical rendering recovers the
bytes. -/
lemma unmarshalText_urn (w u : List Nat) (hw : w.length = 16)
    (hu : u.length = 16) (hb : ∀ b ∈ u, b < 256) :
    unmarshalText w (str2bytes "urn:uuid:" ++ uuidString u) = (.ok, u) := by
  have hL : ¬ (str2bytes "urn:uuid:" ++ uuidString u).length < 32 := by
    simp [List.length_append, uuidString_length u hu, str2bytes]
  have hT : (str2bytes "urn:uuid:" ++ uuidString u).take 9 = str2bytes "urn:uuid:" :=
    List.take_left' rfl
  have hD : (str2bytes "urn:uuid:" ++ uuidString u).drop 9 = uuidString u :=
    List.drop_left' rfl
  have hgroups := groupsCanonical w hw u hu hb []
  rw [List.append_nil] at hgroups
  unfold unmarshalText
  rw [if_neg hL, if_pos hT, hD]
  exact hgroups

/-- Decoding the compact 32-hex-digit rendering recovers the bytes. -/
lemma unmarshalText_compact (w u : List Nat) (hw : w.length = 16)
    (hu : u.length = 16) (hb : ∀ b ∈ u, b < 256) :
    unmarshalText w (renderBytes u) = (.ok, u) := by
  have hgroups := groupsCompact w hw u hu hb []
  rw [List.append_nil] at hgroups
  obtain ⟨b0, b1, b2, b3, b4, b5, b6, b7, b8, b9, b10, b11, b12, b13, b14, b15, rfl⟩ :=
    eq_sixteen u hu
  have h0 : b0 < 256 := hb _ (by simp)
  have hd0 : b0 / 16 < 16 := by omega
  have hL : ¬ (renderBytes [b0, b1, b2, b3, b4, b5, b6, b7, b8, b9,
      b10, b11, b12, b13, b14, b15]).length < 32 := by
    have := renderBytes_length
      [b0, b1, b2, b3, b4, b5, b6, b7, b8, b9, b10, b11, b12, b13, b14, b15]
    simp only [List.length_cons, List.length_nil] at this
    omega
  have hU : ¬ ((renderBytes [b0, b1, b2, b3, b4, b5, b6, b7, b8, b9,
      b10, b11, b12, b13, b14, b15]).take 9 = str2bytes "urn:uuid:") := fun h =>
    (hexChar_facts ⟨b0 / 16, hd0⟩).2.1 (congrArg (fun l => l.headD 0) h)
  have hB : ¬ ((renderBytes [b0, b1, b2, b3, b4, b5, b6, b7, b8, b9,
      b10, b11, b12, b13, b14, b15]).headD 0 = 123) :=
    (hexChar_facts ⟨b0 / 16, hd0⟩).2.2.1
  unfold unmarshalText
  rw [if_neg hL, if_neg hU, if_neg hB]
  exact hgroups

/-- Decoding the uppercase compact rendering also recovers the bytes:
hex digits are accepted case-insensitively. -/
lemma unmarshalText_compact_upper (w u : List Nat) (hw : w.length = 16)
    (hu : u.length = 16) (hb : ∀ b ∈ u, b < 256) :
    unmarshalText w ((renderBytes u).map upperHex) = (.ok, u) := by
  have hgroups := groupsCompactUpper w hw u hu hb []
  rw [List.append_nil] at hgroups
  obtain ⟨b0, b1, b2, b3, b4, b5, b6, b7, b8, b9, b10, b11, b12, b13, b14, b15, rfl⟩ :=
    eq_sixteen u hu
  have h0 : b0 < 256 := hb _ (by simp)
  have hd0 : b0 / 16 < 16 := by omega
  have hL : ¬ ((renderBytes [b0, b1, b2, b3, b4, b5, b6, b7, b8, b9,
      b10, b11, b12, b13, b14, b15]).map upperHex).length < 32 := by
    have := renderBytes_length
      [b0, b1, b2, b3, b4, b5, b6, b7, b8, b9, b10, b11, b12, b13, b14, b15]
    simp only [List.length_cons, List.length_nil] at this
    simp only [List.length_map]
    omega
  have hU : ¬ (((renderBytes [b0, b1, b2, b3, b4, b5, b6, b7, b8, b9,
      b10, b11, b12, b13, b14, b15]).map upperHex).take 9 =
        str2bytes "urn:uuid:") := fun h =>
    (hexChar_facts ⟨b0 / 16, hd0⟩).2.2.2.2.1 (congrArg (fun l => l.headD 0) h)
  have hB : ¬ (((renderBytes [b0, b1, b2, b3, b4, b5, b6, b7, b8, b9,
      b10, b11, b12, b13, b14, b15]).map upperHex).headD 0 = 123) :=
    (hexChar_facts ⟨b0 / 16, hd0⟩).2.2.2.2.2
  unfold unmarshalText
  rw [if_neg hL, if_neg hU, if_neg hB]
  exact hgroups

/-! ## C2: canonical text round-trip -/

/-- C2: for every 16-byte identifier `u` and every 16-byte target,
`UnmarshalText` applied to the 36-character string produced by `String`
succeeds and yields exactly the bytes of `u`. -/
theorem c2_text_roundtrip (u w : List Nat) (hu : u.length = 16)
    (hb : ∀ b ∈ u, b < 256) (hw : w.length = 16) :
    unmarshalText w (uuidString u) = (.ok, u) :=
  unmarshalText_canonical w u hw hu hb

/-- Witness for C2 at the example identifier. -/
theorem c2_witness :
    unmarshalText zeros (uuidString exampleUUID) = (.ok, exampleUUID) :=
  c2_text_roundtrip exampleUUID zeros (by decide) (by decide) (by decide)

/-! ## C4: multi-format input equivalence -/

/-- C4: the four accepted textual forms of the same identifier — bare
hyphenated, brace-wrapped, `urn:uuid:`-prefixed, and compact 32-hex-digit
— all decode via `UnmarshalText` to the identical 16 bytes; hex digits
are accepted case-insensitively (uppercase compact form included). -/
theorem c4_format_equivalence (u w1 w2 w3 w4 w5 : List Nat)
    (hu : u.length = 16) (hb : ∀ b ∈ u, b < 256)
    (hw1 : w1.length = 16) (hw2 : w2.length = 16) (hw3 : w3.length = 16)
    (hw4 : w4.length = 16) (hw5 : w5.length = 16) :
    unmarshalText w1 (uuidString u) = (.ok, u) ∧
    unmarshalText w2 (123 :: (uuidString u ++ [125])) = (.ok, u) ∧
    unmarshalText w3 (str2bytes "urn:uuid:" ++ uuidString u) = (.ok, u) ∧
    unmarshalText w4 (renderBytes u) = (.ok, u) ∧
    unmarshalText w5 ((renderBytes u).map upperHex) = (.ok, u) :=
  ⟨unmarshalText_canonical w1 u hw1 hu hb,
   unmarshalText_braced w2 u hw2 hu hb,
   unmarshalText_urn w3 u hw3 hu hb,
   unmarshalText_compact w4 u hw4 hu hb,
   unmarshalText_compact_upper w5 u hw5 hu hb⟩

/-- Witness for C4: the four concrete forms of
`6ba7b810-9dad-11d1-80b4-00c04fd430c8` from the specification, plus its
uppercase compact form, all decode to the same 16 bytes. -/
theorem c4_witness :
    unmarshalText zeros
        (str2bytes "{6ba7b810-9dad-11d1-80b4-00c04fd430c8}") = (.ok, exampleUUID) ∧
      unmarshalText zeros
        (str2bytes "urn:uuid:6ba7b810-9dad-11d1-80b4-00c04fd430c8") =
          (.ok, exampleUUID) ∧
      unmarshalText zeros
        (str2bytes "6ba7b8109dad11d180b400c04fd430c8") = (.ok, exampleUUID) ∧
      unmarshalText zeros
        (str2bytes "6BA7B8109DAD11D180B400C04FD430C8") = (.ok, exampleUUID) :=
  ⟨(c4_format_equivalence exampleUUID zeros zeros zeros zeros zeros (by decide)
      (by decide) (by decide) (by decide) (by decide) (by decide) (by decide)).2.1,
   (c4_format_equivalence exampleUUID zeros zeros zeros zeros zeros (by decide)
      (by decide) (by decide) (by decide) (by decide) (by decide) (by decide)).2.2.1,
   (c4_format_equivalence exampleUUID zeros zeros zeros zeros zeros (by decide)
      (by decide) (by decide) (by decide) (by decide) (by decide) (by decide)).2.2.2.1,
   (c4_format_equivalence exampleUUID zeros zeros zeros zeros zeros (by decide)
      (by decide) (by decide) (by decide) (by decide) (by decide) (by decide)).2.2.2.2⟩

/-! ## C8: canonical rendering shape -/

lemma hexChar_lower : ∀ n : Fin 16, isLowerHexDigit (hexChar (n : Nat)) = true := by
  decide

lemma renderBytes_mem (bs : List Nat) (hb : ∀ b ∈ bs, b < 256) :
    ∀ c ∈ renderBytes bs, isLowerHexDigit c = true := by
  induction bs with
  | nil => simp [renderBytes]
  | cons b bs ih =>
    intro c hc
    have hblt : b < 256 := hb b (List.mem_cons_self _ _)
    rw [show renderBytes (b :: bs) =
      hexChar (b / 16) :: hexChar (b % 16) :: renderBytes bs from rfl] at hc
    rcases List.mem_cons.mp hc with rfl | hc
    · exact hexChar_lower ⟨b / 16, by omega⟩
    rcases List.mem_cons.mp hc with rfl | hc
    · exact hexChar_lower ⟨b % 16, by omega⟩
    · exact ih (fun x hx => hb x (List.mem_cons_of_mem _ hx)) c hc

lemma renderBytes_count (bs : List Nat) (hb : ∀ b ∈ bs, b < 256) :
    (renderBytes bs).count 45 = 0 := by
  rw [List.count_eq_zero]
  intro h45
  exact absurd (renderBytes_mem bs hb 45 h45) (by decide)

lemma uuidString_chars (u : List Nat) (hb : ∀ b ∈ u, b < 256) :
    ∀ c ∈ uuidString u, isLowerHexDigit c = true ∨ c = 45 := by
  have hchunk : ∀ l : List Nat, (∀ x ∈ l, x ∈ u) →
      ∀ c ∈ renderBytes l, isLowerHexDigit c = true :=
    fun l hl => renderBytes_mem l (fun x hx => hb x (hl x hx))
  intro c hc
  unfold uuidString at hc
  simp only [List.mem_append, List.mem_cons] at hc
  rcases hc with (((hc | rfl | hc) | rfl | hc) | rfl | hc) | rfl | hc
  · exact Or.inl (hchunk _ (fun x hx => List.take_subset _ _ hx) c hc)
  · exact Or.inr rfl
  · exact Or.inl (hchunk _
      (fun x hx => List.drop_subset _ _ (List.take_subset _ _ hx)) c hc)
  · exact Or.inr rfl
  · exact Or.inl (hchunk _
      (fun x hx => List.drop_subset _ _ (List.take_subset _ _ hx)) c hc)
  · exact Or.inr rfl
  · exact Or.inl (hchunk _
      (fun x hx => List.drop_subset _ _ (List.take_subset _ _ hx)) c hc)
  · exact Or.inr rfl
  · exact Or.inl (hchunk _ (fun x hx => List.drop_subset _ _ hx) c hc)

lemma uuidString_count (u : List Nat) (hb : ∀ b ∈ u, b < 256) :
    (uuidString u).count 45 = 4 := by
  have hchunk : ∀ l : List Nat, (∀ x ∈ l, x ∈ u) → (renderBytes l).count 45 = 0 :=
    fun l hl => renderBytes_count l (fun x hx => hb x (hl x hx))
  unfold uuidString
  rw [List.count_append, List.count_append, List.count_append, List.count_append,
    List.count_cons, List.count_cons, List.count_cons, List.count_cons,
    hchunk _ (fun x hx => List.take_subset _ _ hx),
    hchunk _ (fun x hx => List.drop_subset _ _ (List.take_subset _ _ hx)),
    hchunk _ (fun x hx => List.drop_subset _ _ (List.take_subset _ _ hx)),
    hchunk _ (fun x hx => List.drop_subset _ _ (List.take_subset _ _ hx)),
    hchunk _ (fun x hx => List.drop_subset _ _ hx)]
  rfl

/-- C8: `String` renders the 16 bytes as a 36-character string whose
characters are lowercase hex digits apart from exactly four hyphens, at
positions 8, 13, 18 and 23 (the `8-4-4-4-12` grouping), and both
`MarshalText` and `Value` produce exactly this canonical string. -/
theorem c8_canonical_rendering (u : List Nat) (hu : u.length = 16)
    (hb : ∀ b ∈ u, b < 256) :
    (uuidString u).length = 36 ∧
    marshalText u = uuidString u ∧
    value u = uuidString u ∧
    (uuidString u).getD 8 0 = 45 ∧ (uuidString u).getD 13 0 = 45 ∧
    (uuidString u).getD 18 0 = 45 ∧ (uuidString u).getD 23 0 = 45 ∧
    (uuidString u).count 45 = 4 ∧
    (∀ c ∈ uuidString u, isLowerHexDigit c = true ∨ c = 45) := by
  obtain ⟨b0, b1, b2, b3, b4, b5, b6, b7, b8, b9, b10, b11, b12, b13, b14, b15, rfl⟩ :=
    eq_sixteen u hu
  exact ⟨rfl, rfl, rfl, rfl, rfl, rfl, rfl, uuidString_count _ hb, uuidString_chars _ hb⟩

/-- Witness for C8 at the example identifier. -/
theorem c8_witness :
    (uuidString exampleUUID).length = 36 ∧
      marshalText exampleUUID = uuidString exampleUUID ∧
      value exampleUUID = uuidString exampleUUID ∧
      (uuidString exampleUUID).getD 8 0 = 45 ∧
      (uuidString exampleUUID).getD 13 0 = 45 ∧
      (uuidString exampleUUID).getD 18 0 = 45 ∧
      (uuidString exampleUUID).getD 23 0 = 45 ∧
      (uuidString exampleUUID).count 45 = 4 ∧
      (∀ c ∈ uuidString exampleUUID, isLowerHexDigit c = true ∨ c = 45) :=
  c8_canonical_rendering exampleUUID (by decide) (by decide)

end Uuid
